import Mathlib

/-!
Shallow embedding of `src/index.ts` of
rainerhahnekamp/type-safe-typescript-with-type-narrowing.

The source exports a single computation `calcAge` over the union
`Date | null | undefined | string | Person | PersonJson`, guarded by
`assertNonNullable` and dispatched via `typeof`, `instanceof Date` and the
zod-backed type guard `isPerson`.  The external declarations
`parse : string -> Date` and `diffInYears : Date -> number` are modelled as an
abstract environment; `calcAge` is instrumented with a trace of the calls it
makes to them so that claims about which external calls happen are statable.
-/

namespace TypeNarrow

/-- Runtime JavaScript values, as far as the program can distinguish them.
`vdate none` models an invalid `Date` (one whose `getTime()` is `NaN`);
`vdate (some t)` a valid `Date` holding the instant `t`.  Objects are
association lists of named fields. -/
inductive Value where
  | vnull
  | vundefined
  | vbool (b : Bool)
  | vnum (n : Int)
  | vstr (s : String)
  | vdate (time : Option Int)
  | vobj (fields : List (String × Value))

/-- First-match field lookup in the field list of an object (JS objects have no
duplicate keys, so first-match agrees with JS semantics). -/
def lookupField : List (String × Value) → String → Option Value
  | [], _ => none
  | (k, v) :: rest, key => if k = key then some v else lookupField rest key

/-- JS property access `v[key]`: the value of a present field, `undefined` for a
missing field or a non-object receiver.  (`calcAge` only reads properties
after the non-null guard, so the `TypeError` on `null`/`undefined` receivers
is unreachable and not modelled.) -/
def getProp (v : Value) (key : String) : Value :=
  match v with
  | .vobj fields => (lookupField fields key).getD .vundefined
  | _ => .vundefined

/-- Test `typeof v === "string"`. -/
def isString : Value → Bool
  | .vstr _ => true
  | _ => false

/-- Test `v instanceof Date` (true for invalid `Date` instances too). -/
def isDateInstance : Value → Bool
  | .vdate _ => true
  | _ => false

/-- The `z.date()` check of zod: a `Date` instance whose time is not `NaN`. -/
def isValidDateValue : Value → Bool
  | .vdate (some _) => true
  | _ => false

/-- Source function `isPerson`: `personSchema.safeParse(value).success`, where
`personSchema = z.object({ birthday: z.date() })`.  The zod object parser
requires a plain non-null object (a `Date` or primitive is rejected), requires
the `birthday` key to be present, and `z.date()` rejects invalid dates;
unknown extra keys are stripped, not rejected. -/
def isPerson (v : Value) : Bool :=
  match v with
  | .vobj fields =>
    match lookupField fields "birthday" with
    | some b => isValidDateValue b
    | none => false
  | _ => false

/-- Errors a call can throw: `jsError` is a thrown `new Error(msg)` (the
non-null guard uses this); `parseError` stands for whatever error the external
`parse` throws on input it rejects. -/
inductive RunError where
  | jsError (msg : String)
  | parseError (info : String)

/-- Source function `assertNonNullable`: throws
`new Error("undefined or null are not allowed")` exactly when
`value === undefined || value === null`. -/
def assertNonNullable (v : Value) : Except RunError Unit :=
  match v with
  | .vundefined => .error (.jsError "undefined or null are not allowed")
  | .vnull => .error (.jsError "undefined or null are not allowed")
  | _ => .ok ()

/-- One call to an external utility, recording the argument passed. -/
inductive CallEvent where
  | parseCall (arg : Value)
  | diffCall (arg : Value)

/-- The two external utilities declared by the source.  `parse` is declared
`(value: string) => Date` but at runtime receives whatever value the program
hands it, and may throw; `diffInYears : (value: Date) => number` is assumed
total and synchronous (spec section 5). -/
structure Env where
  parse : Value → Except RunError Value
  diffInYears : Value → Int

/-- Composition `diffInYears(parse(x))` with its call trace — the shape shared by the
textual branch and the PersonJson fallback of `calcAge`. -/
def runParseDiff (env : Env) (arg : Value) : Except RunError Int × List CallEvent :=
  match env.parse arg with
  | .error e => (.error e, [.parseCall arg])
  | .ok d => (.ok (env.diffInYears d), [.parseCall arg, .diffCall d])

/-- Source function `calcAge`, instrumented with the list of external calls it
performs, in order.  The result component is the returned number or the
propagated error; the trace component lists every `parse`/`diffInYears` call
with its argument. -/
def calcAge (env : Env) (input : Value) : Except RunError Int × List CallEvent :=
  match assertNonNullable input with
  | .error e => (.error e, [])
  | .ok _ =>
    if isString input then
      runParseDiff env input
    else if isDateInstance input then
      (.ok (env.diffInYears input), [.diffCall input])
    else if isPerson input then
      let b := getProp input "birthday"
      (.ok (env.diffInYears b), [.diffCall b])
    else
      runParseDiff env (getProp input "birthday")

/-- A value with a `birthday` field of the given runtime shape — the common
frame of the TypeScript types `Person` and `PersonJson`. -/
def hasBirthdayOfShape (p : Value → Bool) (v : Value) : Bool :=
  match v with
  | .vobj fields =>
    match lookupField fields "birthday" with
    | some b => p b
    | none => false
  | _ => false

/-- Membership in the TypeScript type `Person = { birthday: Date }` (an
invalid `Date` instance is still a `Date` for the type system). -/
def isPersonTyped (v : Value) : Bool := hasBirthdayOfShape isDateInstance v

/-- Membership in the TypeScript type `PersonJson = { birthday: string }`. -/
def isPersonJsonTyped (v : Value) : Bool := hasBirthdayOfShape isString v

/-- Membership in the declared parameter type of `calcAge`:
`Date | null | undefined | string | Person | PersonJson`. -/
def inDeclaredUnion (v : Value) : Bool :=
  match v with
  | .vnull | .vundefined | .vstr _ | .vdate _ => true
  | _ => isPersonTyped v || isPersonJsonTyped v

/-- A concrete environment for witnesses: instants are year numbers, "now" is
2025-01-01, `diffInYears` is the exact whole-year difference, and `parse`
maps any text to the instant for year 2000 and rejects non-strings. -/
def wEnv : Env where
  parse := fun v =>
    match v with
    | .vstr _ => .ok (.vdate (some 2000))
    | _ => .error (.parseError "argument is not a string")
  diffInYears := fun v =>
    match v with
    | .vdate (some y) => 2025 - y
    | _ => 0

/-- The value `{ birthday: new Date(NaN) }`: inside the TypeScript type
`Person`, yet rejected by the zod schema. -/
def invalidDatePerson : Value := .vobj [("birthday", .vdate none)]

/-- The reading the specification gives the shape-validation predicate: a
structured (non-null) object whose `birthday` attribute is a genuine
TemporalValue, i.e. a `Date` holding an actual instant — not a string or any
other encoding, and not an invalid `Date` (which holds no point in time). -/
def IsGenuinePersonShape (v : Value) : Prop :=
  ∃ fields t, v = .vobj fields ∧ lookupField fields "birthday" = some (.vdate (some t))

/-- C1: for both absence kinds (`null` and `undefined`), `calcAge` fails with
the `AbsentInputError` (message "undefined or null are not allowed") and its
call trace is empty: no `parse` and no `diffInYears` call happens, whatever
the external utilities are. -/
theorem calcAge_absent_fails_without_calls (env : Env) :
    calcAge env .vnull = (.error (.jsError "undefined or null are not allowed"), []) ∧
    calcAge env .vundefined = (.error (.jsError "undefined or null are not allowed"), []) :=
  ⟨rfl, rfl⟩

/-- C2: `isPerson` returns `true` exactly on non-null structured objects whose
`birthday` attribute is a genuine `Date` instant (not a string or other
encoding); being a total `Bool`-valued function it never throws. -/
theorem isPerson_iff_genuine_shape (v : Value) :
    isPerson v = true ↔ IsGenuinePersonShape v := by
  constructor
  · intro h
    cases v with
    | vobj fields =>
      simp only [isPerson] at h
      cases hb : lookupField fields "birthday" with
      | some b =>
        rw [hb] at h
        cases b with
        | vdate time =>
          cases time with
          | some t => exact ⟨fields, t, rfl, hb⟩
          | none => simp [isValidDateValue] at h
        | vnull => simp [isValidDateValue] at h
        | vundefined => simp [isValidDateValue] at h
        | vbool b => simp [isValidDateValue] at h
        | vnum n => simp [isValidDateValue] at h
        | vstr s => simp [isValidDateValue] at h
        | vobj fs => simp [isValidDateValue] at h
      | none => rw [hb] at h; cases h
    | vnull => simp [isPerson] at h
    | vundefined => simp [isPerson] at h
    | vbool b => simp [isPerson] at h
    | vnum n => simp [isPerson] at h
    | vstr s => simp [isPerson] at h
    | vdate t => simp [isPerson] at h
  · rintro ⟨fields, t, rfl, hb⟩
    simp only [isPerson]
    rw [hb]
    rfl

/-- Helper: when `parse` fails on the argument of a `diffInYears(parse(x))`
call, that error is the whole result, and only the parse call happened. -/
theorem runParseDiff_of_parse_error (env : Env) (arg : Value) (e : RunError)
    (he : env.parse arg = .error e) :
    runParseDiff env arg = (.error e, [.parseCall arg]) := by
  simp only [runParseDiff, he]

/-- Helper: when `parse` succeeds on the argument of a `diffInYears(parse(x))`
call, the result is `diffInYears` of the parsed value, after exactly one parse
call and one diff call. -/
theorem runParseDiff_of_parse_ok (env : Env) (arg d : Value)
    (hp : env.parse arg = .ok d) :
    runParseDiff env arg = (.ok (env.diffInYears d), [.parseCall arg, .diffCall d]) := by
  simp only [runParseDiff, hp]

/-- Helper: any parse call recorded by `runParseDiff env arg` was on `arg`. -/
theorem runParseDiff_parseCall_arg (env : Env) (arg b : Value)
    (hmem : CallEvent.parseCall b ∈ (runParseDiff env arg).2) : b = arg := by
  cases h : env.parse arg with
  | error f =>
    rw [runParseDiff_of_parse_error env arg f h] at hmem
    simpa using hmem
  | ok d =>
    rw [runParseDiff_of_parse_ok env arg d h] at hmem
    simpa using hmem

/-- Helper: an error of `parse` on the argument of a `diffInYears(parse(x))`
call propagates unchanged as the result of the call. -/
theorem runParseDiff_error_prop (env : Env) (arg b : Value) (e : RunError)
    (hmem : CallEvent.parseCall b ∈ (runParseDiff env arg).2)
    (he : env.parse b = .error e) :
    (runParseDiff env arg).1 = .error e := by
  obtain rfl : b = arg := runParseDiff_parseCall_arg env arg b hmem
  rw [runParseDiff_of_parse_error env b e he]

/-- C3: on the PersonJsonRecord input `{ birthday: s }`, `isPerson` answers
`false`, `calcAge` falls through to the JSON fallback, parses the text `s`
via DateParser and applies DateDiff once to the parsed date, returning the
same numeric value as the textual branch on `s` and as the instant branch on
the parsed date. -/
theorem calcAge_personJson_fallback (env : Env) (s : String) (t : Option Int)
    (hp : env.parse (.vstr s) = .ok (.vdate t)) :
    isPerson (.vobj [("birthday", .vstr s)]) = false ∧
    calcAge env (.vobj [("birthday", .vstr s)]) =
      (.ok (env.diffInYears (.vdate t)),
       [.parseCall (.vstr s), .diffCall (.vdate t)]) ∧
    (calcAge env (.vobj [("birthday", .vstr s)])).1 = (calcAge env (.vstr s)).1 ∧
    (calcAge env (.vobj [("birthday", .vstr s)])).1 = (calcAge env (.vdate t)).1 := by
  have hjson : calcAge env (.vobj [("birthday", .vstr s)]) = runParseDiff env (.vstr s) := rfl
  have hstr : calcAge env (.vstr s) = runParseDiff env (.vstr s) := rfl
  refine ⟨rfl, ?_, ?_, ?_⟩
  · rw [hjson, runParseDiff_of_parse_ok env (.vstr s) (.vdate t) hp]
  · rw [hjson, hstr]
  · rw [hjson, runParseDiff_of_parse_ok env (.vstr s) (.vdate t) hp]
    rfl

/-- C3 witness: the fallback evaluated in the concrete environment `wEnv`. -/
theorem calcAge_personJson_fallback_witness :
    calcAge wEnv (.vobj [("birthday", .vstr "2000-01-01")]) =
      (.ok 25, [.parseCall (.vstr "2000-01-01"), .diffCall (.vdate (some 2000))]) :=
  (calcAge_personJson_fallback wEnv "2000-01-01" (some 2000) rfl).2.1

/-- C4: on a textual input, `calcAge` calls DateParser exactly once on the
input, then DateDiff exactly once on the parsed result, and returns
`diffInYears(parse(input))`. -/
theorem calcAge_string_branch (env : Env) (s : String) (d : Value)
    (hp : env.parse (.vstr s) = .ok d) :
    calcAge env (.vstr s) =
      (.ok (env.diffInYears d), [.parseCall (.vstr s), .diffCall d]) := by
  have hstr : calcAge env (.vstr s) = runParseDiff env (.vstr s) := rfl
  rw [hstr, runParseDiff_of_parse_ok env (.vstr s) d hp]

/-- C4 witness: with instants as year numbers, "now" fixed at 2025-01-01 and
an exact whole-year DateDiff, the text "2000-01-01" yields 25. -/
theorem calcAge_string_branch_witness :
    calcAge wEnv (.vstr "2000-01-01") =
      (.ok 25, [.parseCall (.vstr "2000-01-01"), .diffCall (.vdate (some 2000))]) :=
  calcAge_string_branch wEnv "2000-01-01" (.vdate (some 2000)) rfl

/-- C5: on a `Date` input, `calcAge` calls DateDiff directly — exactly one
diff call, no parse call — and whenever `parse s` returns that same date, the
result coincides with the textual branch on `s` under the same environment. -/
theorem calcAge_date_branch (env : Env) (t : Option Int) (s : String)
    (hp : env.parse (.vstr s) = .ok (.vdate t)) :
    calcAge env (.vdate t) =
      (.ok (env.diffInYears (.vdate t)), [.diffCall (.vdate t)]) ∧
    (calcAge env (.vdate t)).1 = (calcAge env (.vstr s)).1 := by
  have hstr : calcAge env (.vstr s) = runParseDiff env (.vstr s) := rfl
  refine ⟨rfl, ?_⟩
  rw [hstr, runParseDiff_of_parse_ok env (.vstr s) (.vdate t) hp]
  rfl

/-- C5 witness: the instant branch on the date for year 2000 agrees with the
textual branch on "2000-01-01" in the concrete environment `wEnv`. -/
theorem calcAge_date_branch_witness :
    calcAge wEnv (.vdate (some 2000)) = (.ok 25, [.diffCall (.vdate (some 2000))]) ∧
    (calcAge wEnv (.vdate (some 2000))).1 = (calcAge wEnv (.vstr "2000-01-01")).1 :=
  calcAge_date_branch wEnv (some 2000) "2000-01-01" rfl

/-- C6: on the PersonRecord input `{ birthday: d }` with `d` a valid date,
`isPerson` answers `true` and `calcAge` returns DateDiff applied to the
`birthday` attribute — exactly one diff call, no parse call — which equals
the value of the instant branch on the same date. -/
theorem calcAge_personRecord_branch (env : Env) (t : Int) :
    isPerson (.vobj [("birthday", .vdate (some t))]) = true ∧
    calcAge env (.vobj [("birthday", .vdate (some t))]) =
      (.ok (env.diffInYears (.vdate (some t))), [.diffCall (.vdate (some t))]) ∧
    (calcAge env (.vobj [("birthday", .vdate (some t))])).1 =
      (calcAge env (.vdate (some t))).1 :=
  ⟨rfl, rfl, rfl⟩

/-- C7: whenever a branch of `calcAge` calls `parse` on some argument and
`parse` fails there with an error `e`, `calcAge` fails with the very same
error `e`: no branch catches or translates a parse failure. -/
theorem calcAge_parse_error_propagates (env : Env) (v b : Value) (e : RunError)
    (hmem : CallEvent.parseCall b ∈ (calcAge env v).2)
    (he : env.parse b = .error e) :
    (calcAge env v).1 = .error e := by
  cases v with
  | vnull =>
    have h2 : (calcAge env Value.vnull).2 = [] := rfl
    rw [h2] at hmem
    simp at hmem
  | vundefined =>
    have h2 : (calcAge env Value.vundefined).2 = [] := rfl
    rw [h2] at hmem
    simp at hmem
  | vbool bb =>
    exact runParseDiff_error_prop env (getProp (.vbool bb) "birthday") b e hmem he
  | vnum n =>
    exact runParseDiff_error_prop env (getProp (.vnum n) "birthday") b e hmem he
  | vstr s =>
    exact runParseDiff_error_prop env (.vstr s) b e hmem he
  | vdate t =>
    have h2 : (calcAge env (.vdate t)).2 = [.diffCall (.vdate t)] := rfl
    rw [h2] at hmem
    simp at hmem
  | vobj fields =>
    by_cases hip : isPerson (.vobj fields) = true
    · have hcalc : calcAge env (.vobj fields) =
          (.ok (env.diffInYears (getProp (.vobj fields) "birthday")),
           [.diffCall (getProp (.vobj fields) "birthday")]) := by
        simp only [calcAge, assertNonNullable, isString, isDateInstance, hip,
          Bool.false_eq_true, if_false, if_true]
      rw [hcalc] at hmem
      simp at hmem
    · have hfalse : isPerson (.vobj fields) = false := by
        simpa using hip
      have hcalc : calcAge env (.vobj fields) =
          runParseDiff env (getProp (.vobj fields) "birthday") := by
        simp only [calcAge, assertNonNullable, isString, isDateInstance, hfalse,
          Bool.false_eq_true, if_false]
      rw [hcalc] at hmem ⊢
      exact runParseDiff_error_prop env (getProp (.vobj fields) "birthday") b e hmem he

/-- C7 witness: `wEnv.parse` rejects the non-string argument the fallback
hands it on `{ birthday: new Date(NaN) }`, and `calcAge` surfaces exactly
that error. -/
theorem calcAge_parse_error_propagates_witness :
    (calcAge wEnv invalidDatePerson).1 = .error (.parseError "argument is not a string") :=
  calcAge_parse_error_propagates wEnv invalidDatePerson (.vdate none)
    (.parseError "argument is not a string") (List.mem_singleton.mpr rfl) rfl

/-- C8: `calcAge` is deterministic — its result (value and call trace alike)
is a function of the input and of the behaviour of `parse` and `diffInYears`
only: two environments with identical parser and differ behaviour give
identical outcomes on every input, with no hidden state anywhere. -/
theorem calcAge_deterministic (env₁ env₂ : Env) (v : Value)
    (hp : ∀ x, env₁.parse x = env₂.parse x)
    (hd : ∀ x, env₁.diffInYears x = env₂.diffInYears x) :
    calcAge env₁ v = calcAge env₂ v := by
  obtain ⟨p₁, d₁⟩ := env₁
  obtain ⟨p₂, d₂⟩ := env₂
  have hpe : p₁ = p₂ := funext hp
  have hde : d₁ = d₂ := funext hd
  rw [hpe, hde]

/-- C8 witness: the determinism theorem applied at the concrete environment
and a concrete input. -/
theorem calcAge_deterministic_witness :
    calcAge wEnv (.vstr "2000-01-01") = calcAge wEnv (.vstr "2000-01-01") :=
  calcAge_deterministic wEnv wEnv (.vstr "2000-01-01") (fun _ => rfl) (fun _ => rfl)

/-- C9: the value `{ birthday: new Date(NaN) }` lies in the declared union of
`calcAge` (it inhabits the TypeScript type `Person`), yet the zod-backed
`isPerson` rejects it, so `calcAge` takes the PersonJson fallback and its
first external call is `parse` applied to a `Date` value — not a string —
violating the declared string parameter of `parse`. -/
theorem calcAge_invalid_date_breaks_parse_contract (env : Env) :
    inDeclaredUnion invalidDatePerson = true ∧
    isPersonTyped invalidDatePerson = true ∧
    isPerson invalidDatePerson = false ∧
    (calcAge env invalidDatePerson).2.head? = some (.parseCall (.vdate none)) ∧
    isString (.vdate none) = false := by
  refine ⟨rfl, rfl, rfl, ?_, rfl⟩
  have hcalc : calcAge env invalidDatePerson = runParseDiff env (.vdate none) := rfl
  rw [hcalc]
  cases h : env.parse (.vdate none) with
  | error f =>
    rw [runParseDiff_of_parse_error env (.vdate none) f h]
    rfl
  | ok d =>
    rw [runParseDiff_of_parse_ok env (.vdate none) d h]
    rfl

/-- C10: the empty string is not an absence kind: `assertNonNullable` returns
normally on `""`, `calcAge ""` proceeds to the textual branch (its first
external call is `parse ""`), returns `diffInYears(parse(""))` when the
parser succeeds, and any error it reports is one the parser itself produced
on `""` — never the guard error. -/
theorem calcAge_empty_string_not_absent (env : Env) :
    assertNonNullable (.vstr "") = .ok () ∧
    (calcAge env (.vstr "")).2.head? = some (.parseCall (.vstr "")) ∧
    (∀ d, env.parse (.vstr "") = .ok d →
      calcAge env (.vstr "") =
        (.ok (env.diffInYears d), [.parseCall (.vstr ""), .diffCall d])) ∧
    (∀ e, (calcAge env (.vstr "")).1 = .error e → env.parse (.vstr "") = .error e) := by
  have hstr : calcAge env (.vstr "") = runParseDiff env (.vstr "") := rfl
  refine ⟨rfl, ?_, ?_, ?_⟩
  · rw [hstr]
    cases h : env.parse (.vstr "") with
    | error f =>
      rw [runParseDiff_of_parse_error env (.vstr "") f h]
      rfl
    | ok d =>
      rw [runParseDiff_of_parse_ok env (.vstr "") d h]
      rfl
  · intro d hp
    rw [hstr, runParseDiff_of_parse_ok env (.vstr "") d hp]
  · intro e hres
    rw [hstr] at hres
    cases h : env.parse (.vstr "") with
    | error f =>
      rw [runParseDiff_of_parse_error env (.vstr "") f h] at hres
      have hres2 : (Except.error f : Except RunError Int) = Except.error e := hres
      have hfe : f = e := by injection hres2
      rw [hfe]
    | ok d =>
      rw [runParseDiff_of_parse_ok env (.vstr "") d h] at hres
      simp at hres

/-- C10 witness: in the concrete environment `wEnv` the call `calcAge ""`
reaches the parser and returns normally, not with the guard error. -/
theorem calcAge_empty_string_not_absent_witness :
    calcAge wEnv (.vstr "") =
      (.ok 25, [.parseCall (.vstr ""), .diffCall (.vdate (some 2000))]) :=
  (calcAge_empty_string_not_absent wEnv).2.2.1 (.vdate (some 2000)) rfl

end TypeNarrow
